import Mathlib

/-!
Shallow embedding of the instrumentation layer of the tf-encrypted/rfcs
`20190924-tensorflow-federated` experiment:

* `logging_helpers.py` — recursion-strategy registry and stage-tree visitor,
  formatting-strategy registry (`format_object`), the call-depth counter and the
  monkey-patching instrumentation wrappers, and the factory decorators.
* `secure_federated_executor.py` — the pass-through `SecureFederatedExecutor`
  stage and its `SecureFederatedExecutorValue` wrapper.

Python runtime objects are modeled by explicit inductive types; Python exception
propagation is modeled by `Except`; the shared mutable globals
(`_CURRENT_CALL_LEVEL`, the emitted log) are threaded through an explicit state.
-/

namespace LoggingHelpers

/-- Result of `format_object`.  The strategies registered for Python `list` and
`tuple` (logging_helpers.py lines 275-276) return a Python list / tuple of
formatted elements rather than a string, so the result type distinguishes the
three shapes. -/
inductive Fmt where
  | str (s : String)
  | list (xs : List Fmt)
  | tuple (xs : List Fmt)

/-- Python objects that the instrumentation code formats or inspects.  Each
constructor corresponds to one runtime type with a registered formatting
strategy (logging_helpers.py lines 256-291); `other` stands for any value whose
runtime type has no entry in `FORMATTING_STRATEGIES`, carrying `str(x)` and its
type name.  External objects (TFF values, protobufs, tensors) are opaque: only
the fields the formatting and inspection code reads are modeled. -/
inductive PyObj where
  /-- the Python `None` object (strategy at line 274) -/
  | pyNone
  /-- a Python `float`; carries `str(x)` (strategy at line 273) -/
  | pyFloat (strRepr : String)
  /-- a Python `list` (strategy at line 275) -/
  | pyList (xs : List PyObj)
  /-- a Python `tuple` (strategy at line 276) -/
  | pyTuple (xs : List PyObj)
  /-- one of the ExecutorValue classes registered at lines 256-264 of
  logging_helpers.py and line 68 of secure_federated_executor.py; carries
  `type(x).__name__`, `id(x)` and `str(x.type_signature)` -/
  | executorValue (clsName : String) (addr : Nat) (typeSig : String)
  /-- a `TensorType` / `FederatedType` / `FunctionType`; carries `str(x)`
  (strategies at lines 266-271) -/
  | typeSpec (strRepr : String)
  /-- a `tf.EagerTensor`; carries `type(x).__name__` and `id(x)` (line 278) -/
  | eagerTensor (clsName : String) (addr : Nat)
  /-- an `IntrinsicDef`; carries `x.uri`, `str(x.type_signature)`, `id(x)`
  (line 281) -/
  | intrinsicDef (uri : String) (typeSig : String) (addr : Nat)
  /-- a `ComputationImpl`; carries `WhichOneof`, `id(x)`, type signature
  (line 284) -/
  | computationImpl (whichComp : String) (addr : Nat) (typeSig : String)
  /-- a `computation_pb2.Computation`; carries the `computation` oneof, the
  `intrinsic.uri` field, `id(x)` and the `type` oneof (line 287) -/
  | computationPb (whichComp : String) (intrinsicUri : String) (addr : Nat) (whichType : String)
  /-- an `AnonymousTuple`; carries `id(x)`, `_name_array` and `_element_array`
  (line 290) -/
  | anonymousTuple (addr : Nat) (names : List (Option String)) (values : List PyObj)
  /-- any object whose runtime type is NOT registered in
  `FORMATTING_STRATEGIES`; carries the type name and `str(x)` -/
  | other (typeName : String) (strRepr : String)

/-- Python `str()` applied to a `Fmt` result (used when a formatted object is
interpolated into another format string, as `format_anon_tuple` does).  Element
quoting of Python `repr` is not reproduced; the text is display-only. -/
def fmtStr : Fmt → String
  | .str s => s
  | .list xs => "[" ++ String.intercalate ", " (xs.attach.map (fun c => fmtStr c.1)) ++ "]"
  | .tuple xs => "(" ++ String.intercalate ", " (xs.attach.map (fun c => fmtStr c.1)) ++ ")"
termination_by f => sizeOf f
decreasing_by
  all_goals simp_wf
  all_goals (have h9 := List.sizeOf_lt_of_mem c.2; omega)

/-- Python `str(x)`; external reprs are opaque and modeled from the carried
fields (display-only, no claim depends on the exact text). -/
def pyStr : PyObj → String
  | .pyNone => "None"
  | .pyFloat r => r
  | .pyList xs => "[" ++ String.intercalate ", " (xs.attach.map (fun c => pyStr c.1)) ++ "]"
  | .pyTuple xs => "(" ++ String.intercalate ", " (xs.attach.map (fun c => pyStr c.1)) ++ ")"
  | .executorValue cls a _ => "<" ++ cls ++ " object at " ++ toString a ++ ">"
  | .typeSpec r => r
  | .eagerTensor cls a => "<" ++ cls ++ " at " ++ toString a ++ ">"
  | .intrinsicDef uri ts _ => "IntrinsicDef(" ++ uri ++ ", " ++ ts ++ ")"
  | .computationImpl w a _ => "<ComputationImpl " ++ w ++ " at " ++ toString a ++ ">"
  | .computationPb w _ _ _ => "computation: " ++ w
  | .anonymousTuple a _ _ => "<AnonymousTuple at " ++ toString a ++ ">"
  | .other _ r => r
termination_by x => sizeOf x
decreasing_by
  all_goals simp_wf
  all_goals (have h9 := List.sizeOf_lt_of_mem c.2; omega)

/-- Python `str(type(x))` for the modeled objects (used only by the generic
default formatting strategy). -/
def pyTypeStr : PyObj → String
  | .pyNone => "<class NoneType>"
  | .pyFloat _ => "<class float>"
  | .pyList _ => "<class list>"
  | .pyTuple _ => "<class tuple>"
  | .executorValue cls _ _ => "<class " ++ cls ++ ">"
  | .typeSpec _ => "<class ComputationType>"
  | .eagerTensor cls _ => "<class " ++ cls ++ ">"
  | .intrinsicDef _ _ _ => "<class IntrinsicDef>"
  | .computationImpl _ _ _ => "<class ComputationImpl>"
  | .computationPb _ _ _ _ => "<class Computation>"
  | .anonymousTuple _ _ _ => "<class AnonymousTuple>"
  | .other tyName _ => "<class " ++ tyName ++ ">"

/-- DEFAULT_STRATEGY (logging_helpers.py line 53):
`lambda x: "{} {}".format(x, type(x))`. -/
def DEFAULT_STRATEGY (x : PyObj) : String :=
  pyStr x ++ " " ++ pyTypeStr x

/-- Rendering of one entry of `_name_array` inside `format_anon_tuple`
(an unnamed element prints as `None`). -/
def optName : Option String → String
  | none => "None"
  | some n => n

/-- format_object (logging_helpers.py lines 61-63):
`FORMATTING_STRATEGIES.get(type(x), DEFAULT_STRATEGY)(x)`.  The dictionary
lookup on `type(x)` is the match on the constructor; each branch is the lambda
registered for that type at lines 256-291 (the AnonymousTuple branch inlines
`format_anon_tuple`, lines 293-300), and the `other` branch is the generic
default. -/
def format_object : PyObj → Fmt
  | .pyNone => .str "-"
  | .pyFloat r => .str ("<" ++ r ++ " : float>")
  | .pyList xs => .list (xs.attach.map (fun c => format_object c.1))
  | .pyTuple xs => .tuple (xs.attach.map (fun c => format_object c.1))
  | .executorValue cls a ts => .str ("<" ++ cls ++ " @" ++ toString a ++ " : " ++ ts ++ ">")
  | .typeSpec r => .str ("<" ++ r ++ ">")
  | .eagerTensor cls a => .str ("<" ++ cls ++ " @" ++ toString a ++ ">")
  | .intrinsicDef uri ts a => .str ("<IntrinsicDef " ++ uri ++ " " ++ ts ++ " @" ++ toString a ++ ">")
  | .computationImpl w a ts => .str ("<ComputationImpl " ++ w ++ " @" ++ toString a ++ " : " ++ ts ++ ">")
  | .computationPb w _ a ty => .str ("<ComputationPb " ++ w ++ " @" ++ toString a ++ " : " ++ ty ++ ">")
  | .anonymousTuple a names values =>
      let fmtVals := values.attach.map (fun c => fmtStr (format_object c.1))
      .str ("<AnonymousTuple @" ++ toString a ++ " : " ++
        "(" ++ String.intercalate ", "
          (List.zipWith (fun n f => optName n ++ ": " ++ f) names fmtVals) ++ ")>")
  | .other tyName r => .str (DEFAULT_STRATEGY (.other tyName r))
termination_by x => sizeOf x
decreasing_by
  all_goals simp_wf
  all_goals (have h9 := List.sizeOf_lt_of_mem c.2; omega)

/-- Whether `type(x)` has an entry in `FORMATTING_STRATEGIES` after the module
level registrations (logging_helpers.py lines 256-291 and
secure_federated_executor.py line 68). -/
def hasRegisteredFormatter : PyObj → Bool
  | .other _ _ => false
  | _ => true

/-- IndentStrategy (logging_helpers.py lines 76-78). -/
inductive IndentStrategy where
  | STACK_LEVEL
  | CALL_LEVEL
deriving DecidableEq

/-- One `print(...)` emitted by an instrumentation wrapper: the `prefix(executor)`
string, the operation label (such as "create_value call"), and the remaining
formatted arguments in order. -/
structure TraceLine where
  pfx : String
  msg : String
  args : List Fmt

/-- The mutable process state the wrappers touch: the module globals
`_CURRENT_INDENT_STRATEGY` and `_CURRENT_CALL_LEVEL` (logging_helpers.py lines
81-82; the strategy is set to `CALL_LEVEL` at import, line 91) and the stream of
emitted trace lines. -/
structure LogState where
  indentStrategy : IndentStrategy
  callLevel : Int
  log : List TraceLine

/-- Python `'  ' * n` (for a non-positive count the result is empty). -/
def indentation (n : Int) : String :=
  String.join (List.replicate n.toNat "  ")

/-- Display identity of one executor as used by `prefix` (logging_helpers.py
lines 97-109): `type(executor).__name__`, `hash(executor)`, and the
`stack_level` attribute assigned by the instrumentation visitor.  (Only the
STACK_LEVEL branch reads `stack_level`; it is modeled as always present.) -/
structure ExecutorInfo where
  typeName : String
  hashVal : Int
  stack_level : Nat

/-- prefix(executor) (logging_helpers.py lines 97-109). -/
def prefixStr (ex : ExecutorInfo) (s : LogState) : String :=
  let ind : String :=
    match s.indentStrategy with
    | .STACK_LEVEL => indentation ex.stack_level
    | .CALL_LEVEL => indentation s.callLevel
  ind ++ ex.typeName ++ " " ++ toString ex.hashVal

/-- Append one printed line to the emitted log. -/
def pushLine (s : LogState) (l : TraceLine) : LogState :=
  { s with log := s.log ++ [l] }

/-- A propagating Python exception (payload is its display text). -/
abbrev PyErr := String

/-- Outcome of running an (asynchronous) operation: either it finished in some
state with a normal result or a raised exception, or the step budget ran out
while it was still delegating (used to express non-termination of the
double-patched wrapper). -/
inductive RunResult (α : Type) where
  | done (s : LogState) (res : Except PyErr α)
  | outOfFuel (s : LogState)

/-- The state when the operation stopped (normally, by raising, or when the
fuel ran out). -/
def RunResult.finalState : RunResult α → LogState
  | .done s _ => s
  | .outOfFuel s => s

/-- The value delivered on the normal-return path, if any. -/
def RunResult.okValue : RunResult α → Option α
  | .done _ (.ok r) => some r
  | _ => none

/-- State transformation performed by the patched `create_value` before it
delegates (logging_helpers.py lines 112-114): print the call line, then
increment `_CURRENT_CALL_LEVEL`. -/
def create_value_entry (ex : ExecutorInfo) (value type_spec : PyObj) (s : LogState) : LogState :=
  let s1 := pushLine s
    ⟨prefixStr ex s, "create_value call", [format_object value, .str ";", format_object type_spec]⟩
  { s1 with callLevel := s1.callLevel + 1 }

/-- The patched `create_value` (logging_helpers.py lines 111-118), given the
operation that `executor._real_create_value` resolves to.  When the delegate
raises, the error propagates immediately: the decrement on line 116 and the
retr line on line 117 do not run. -/
def create_value_wrapper (ex : ExecutorInfo)
    (real : PyObj → PyObj → LogState → RunResult PyObj)
    (value type_spec : PyObj) (s : LogState) : RunResult PyObj :=
  match real value type_spec (create_value_entry ex value type_spec s) with
  | .outOfFuel s1 => .outOfFuel s1
  | .done s1 (.error e) => .done s1 (.error e)
  | .done s1 (.ok res) =>
      let s2 := { s1 with callLevel := s1.callLevel - 1 }
      .done (pushLine s2 ⟨prefixStr ex s2, "create_value retr", [format_object res]⟩) (.ok res)

/-- State transformation performed by the patched `create_call` before it
delegates (logging_helpers.py lines 124-126). -/
def create_call_entry (ex : ExecutorInfo) (comp arg : PyObj) (s : LogState) : LogState :=
  let s1 := pushLine s
    ⟨prefixStr ex s, "create_call call", [format_object comp, .str ";", format_object arg]⟩
  { s1 with callLevel := s1.callLevel + 1 }

/-- The patched `create_call` (logging_helpers.py lines 123-130). -/
def create_call_wrapper (ex : ExecutorInfo)
    (real : PyObj → PyObj → LogState → RunResult PyObj)
    (comp arg : PyObj) (s : LogState) : RunResult PyObj :=
  match real comp arg (create_call_entry ex comp arg s) with
  | .outOfFuel s1 => .outOfFuel s1
  | .done s1 (.error e) => .done s1 (.error e)
  | .done s1 (.ok res) =>
      let s2 := { s1 with callLevel := s1.callLevel - 1 }
      .done (pushLine s2 ⟨prefixStr ex s2, "create_call retr", [format_object res]⟩) (.ok res)

/-- The patched `create_tuple` (logging_helpers.py lines 135-139): it logs and
delegates but never touches `_CURRENT_CALL_LEVEL`. -/
def create_tuple_wrapper (ex : ExecutorInfo)
    (real : PyObj → LogState → RunResult PyObj)
    (elements : PyObj) (s : LogState) : RunResult PyObj :=
  match real elements
      (pushLine s ⟨prefixStr ex s, "create_tuple call", [format_object elements]⟩) with
  | .outOfFuel s1 => .outOfFuel s1
  | .done s1 (.error e) => .done s1 (.error e)
  | .done s1 (.ok res) =>
      .done (pushLine s1 ⟨prefixStr ex s1, "create_tuple retr", [format_object res]⟩) (.ok res)

/-- The patched `create_selection` (logging_helpers.py lines 144-148): it logs
(only the index and name, not the source) and delegates but never touches
`_CURRENT_CALL_LEVEL`. -/
def create_selection_wrapper (ex : ExecutorInfo)
    (real : PyObj → PyObj → PyObj → LogState → RunResult PyObj)
    (source index name : PyObj) (s : LogState) : RunResult PyObj :=
  match real source index name
      (pushLine s ⟨prefixStr ex s, "create_selection call", [format_object index, format_object name]⟩) with
  | .outOfFuel s1 => .outOfFuel s1
  | .done s1 (.error e) => .done s1 (.error e)
  | .done s1 (.ok res) =>
      .done (pushLine s1 ⟨prefixStr ex s1, "create_selection retr", [format_object res]⟩) (.ok res)

/-- What a method-slot attribute of an executor instance can hold after any
number of monkey-patch passes: the class implementation, or one of the wrapper
closures installed by `monkey_patch_executor`.  All wrapper closures for a
given operation have the same body and close over the same executor, so one
tag suffices: a wrapper always resolves `executor._real_create_value` (and
siblings) at call time. -/
inductive Slot where
  | original
  | wrapper
deriving DecidableEq

/-- The instance-attribute state `monkey_patch_executor` reads and writes: the
`stack_level` attribute set by the instrumentation visitor, and for each of the
four operations the current slot (`executor.create_value` etc.) plus the saved
slot (`executor._real_create_value` etc., absent before the first patch). -/
structure NodeAttrs where
  stack_level : Option Nat
  real_create_value : Option Slot
  create_value_slot : Slot
  real_create_call : Option Slot
  create_call_slot : Slot
  real_create_tuple : Option Slot
  create_tuple_slot : Slot
  real_create_selection : Option Slot
  create_selection_slot : Slot
deriving DecidableEq

/-- Attributes of a freshly constructed executor: no `_real_*` saved, every
operation still the class implementation. -/
def freshAttrs : NodeAttrs :=
  ⟨none, none, .original, none, .original, none, .original, none, .original⟩

/-- monkey_patch_executor (logging_helpers.py lines 94-151) as it acts on the
attribute state: for each operation, `executor._real_op = executor.op` (saving
whatever the attribute currently holds) and then `executor.op = <wrapper>`. -/
def monkey_patch_executor (a : NodeAttrs) : NodeAttrs :=
  { a with
    real_create_value := some a.create_value_slot
    create_value_slot := .wrapper
    real_create_call := some a.create_call_slot
    create_call_slot := .wrapper
    real_create_tuple := some a.create_tuple_slot
    create_tuple_slot := .wrapper
    real_create_selection := some a.create_selection_slot
    create_selection_slot := .wrapper }

/-- Calling the operation held in a `create_value` slot of an executor whose
attribute state is `a`.  The `original` slot runs the class implementation
`orig`; a `wrapper` slot runs the wrapper body, which resolves
`executor._real_create_value` afresh at call time (the wrapper body reads the
attribute, it does not capture the delegate).  `fuel` bounds the number of
wrapper re-entries; exhausting it models a delegation chain that never reaches
an original implementation. -/
def run_create_value (orig : PyObj → PyObj → LogState → RunResult PyObj)
    (a : NodeAttrs) (ex : ExecutorInfo) :
    Nat → Slot → PyObj → PyObj → LogState → RunResult PyObj
  | _, .original, value, type_spec, s => orig value type_spec s
  | 0, .wrapper, _, _, s => .outOfFuel s
  | fuel + 1, .wrapper, value, type_spec, s =>
      create_value_wrapper ex
        (fun v ts s1 =>
          match a.real_create_value with
          | none => .done s1 (.error "AttributeError: _real_create_value")
          | some slot => run_create_value orig a ex fuel slot v ts s1)
        value type_spec s

/-- The executor stack tree.  Each constructor is one executor class with an
entry in `VISIT_RECURSION_STRATEGIES` after module load (logging_helpers.py
lines 243-253 plus secure_federated_executor.py lines 65-66 — the dict keyed by
`type(executor)` is total on these classes, so the lookup is a match on the
constructor).  The payload `attrs` models the node's mutable instance
attributes.  A `FederatingExecutor` owns the three entries of its
`_target_executors` dict — placements `None`, `tff.SERVER` and `tff.CLIENTS`,
each an ordered list of executors (the constructor normalizes a single executor
to a one-element list, as in `custom_executor_stacks.py`). -/
inductive ExecutorTree (α : Type) where
  | caching (attrs : α) (target : ExecutorTree α)
  | composing (attrs : α) (parent : ExecutorTree α) (children : List (ExecutorTree α))
  | threadDelegating (attrs : α) (target : ExecutorTree α)
  | eagerTF (attrs : α)
  | federating (attrs : α) (uncond server clients : List (ExecutorTree α))
  | referenceResolving (attrs : α) (target : ExecutorTree α)
  | remote (attrs : α)
  | transforming (attrs : α) (target : ExecutorTree α)
  | secureFederated (attrs : α) (target : ExecutorTree α)

/-- The registered recursion strategy for each executor type:
`VISIT_RECURSION_STRATEGIES[type(executor_stack)](executor_stack)`.  Each
branch is the lambda registered for that class (logging_helpers.py lines
243-253; the SecureFederatedExecutor entry is secure_federated_executor.py
lines 65-66).  For a FederatingExecutor the strategy is
`ex._target_executors[None] + ex._target_executors[tff.SERVER] +
ex._target_executors[tff.CLIENTS]`. -/
def recursion_strategy {α : Type} : ExecutorTree α → List (ExecutorTree α)
  | .caching _ t => [t]
  | .composing _ p cs => [p] ++ cs
  | .threadDelegating _ t => [t]
  | .eagerTF _ => []
  | .federating _ u sv cl => u ++ sv ++ cl
  | .referenceResolving _ t => [t]
  | .remote _ => []
  | .transforming _ t => [t]
  | .secureFederated _ t => [t]

/-- Every child produced by a registered recursion strategy is a structural
subterm, hence smaller; this is the termination measure fact used by every
traversal below. -/
def sizeOf_lt_of_mem_strategy {α : Type} [SizeOf α] {t c : ExecutorTree α}
    (h : c ∈ recursion_strategy t) : sizeOf c < sizeOf t := by
  cases t <;>
    simp only [recursion_strategy, List.mem_singleton, List.mem_append,
      List.cons_append, List.nil_append, List.mem_cons, List.not_mem_nil,
      or_false, false_or] at h
  case caching a t => subst h; simp
  case composing a p cs =>
    rcases h with h | h
    · subst h; simp; all_goals omega
    · have h1 := List.sizeOf_lt_of_mem h; simp; all_goals omega
  case threadDelegating a t => subst h; simp
  case federating a u sv cl =>
    rcases h with (h | h) | h <;> (have h1 := List.sizeOf_lt_of_mem h; simp; all_goals omega)
  case referenceResolving a t => subst h; simp
  case transforming a t => subst h; simp
  case secureFederated a t => subst h; simp

/-- ExecutorStackVisitor (logging_helpers.py lines 35-41), with an explicit
visitor state `σ` standing for the visitor object's mutable fields. -/
structure ExecutorStackVisitor (σ α : Type) where
  visit_before : σ → ExecutorTree α → σ
  visit_after : σ → ExecutorTree α → σ

/-- visit_executor_stack (logging_helpers.py lines 44-50): call `visit_before`,
recurse into the children returned by the node's registered recursion
strategy in order, then call `visit_after`. -/
def visit_executor_stack {σ α : Type} (v : ExecutorStackVisitor σ α)
    (t : ExecutorTree α) (s : σ) : σ :=
  let s1 := v.visit_before s t
  let s2 := (recursion_strategy t).attach.foldl
    (fun acc c => visit_executor_stack v c.1 acc) s1
  v.visit_after s2 t
termination_by sizeOf t
decreasing_by exact sizeOf_lt_of_mem_strategy c.2

/-- One visitor callback occurrence during a traversal. -/
inductive VisitEvent (α : Type) where
  | before (t : ExecutorTree α)
  | after (t : ExecutorTree α)

/-- Feed one recorded callback event to a visitor. -/
def applyEvent {σ α : Type} (v : ExecutorStackVisitor σ α) (s : σ) : VisitEvent α → σ
  | .before t => v.visit_before s t
  | .after t => v.visit_after s t

/-- The canonical depth-first callback sequence of a stage tree: `before` the
node, the sequences of the strategy children in order, `after` the node. -/
def dfsEvents {α : Type} (t : ExecutorTree α) : List (VisitEvent α) :=
  .before t :: (((recursion_strategy t).attach.map (fun c => dfsEvents c.1)).flatten ++ [.after t])
termination_by sizeOf t
decreasing_by exact sizeOf_lt_of_mem_strategy c.2

/-- Number of nodes of a stage tree (as discovered through the recursion
strategies). -/
def nodeCount {α : Type} (t : ExecutorTree α) : Nat :=
  1 + ((recursion_strategy t).attach.map (fun c => nodeCount c.1)).sum
termination_by sizeOf t
decreasing_by exact sizeOf_lt_of_mem_strategy c.2

/-- A visitor that only counts its `visit_before` callbacks. -/
def beforeCountVisitor (α : Type) : ExecutorStackVisitor Nat α :=
  ⟨fun n _ => n + 1, fun n _ => n⟩

/-- A visitor that only counts its `visit_after` callbacks. -/
def afterCountVisitor (α : Type) : ExecutorStackVisitor Nat α :=
  ⟨fun n _ => n, fun n _ => n + 1⟩

/-- Whether an event is a `visit_before` callback. -/
def isBeforeEvent {α : Type} : VisitEvent α → Bool
  | .before _ => true
  | .after _ => false

/-- Whether an event is a `visit_after` callback. -/
def isAfterEvent {α : Type} : VisitEvent α → Bool
  | .before _ => false
  | .after _ => true

/-- The node's attribute payload. -/
def attrsOf {α : Type} : ExecutorTree α → α
  | .caching a _ => a
  | .composing a _ _ => a
  | .threadDelegating a _ => a
  | .eagerTF a => a
  | .federating a _ _ _ => a
  | .referenceResolving a _ => a
  | .remote a => a
  | .transforming a _ => a
  | .secureFederated a _ => a

/-- `type(executor).__name__` of a node. -/
def kindName {α : Type} : ExecutorTree α → String
  | .caching _ _ => "CachingExecutor"
  | .composing _ _ _ => "ComposingExecutor"
  | .threadDelegating _ _ => "ThreadDelegatingExecutor"
  | .eagerTF _ => "EagerTFExecutor"
  | .federating _ _ _ _ => "FederatingExecutor"
  | .referenceResolving _ _ => "ReferenceResolvingExecutor"
  | .remote _ => "RemoteExecutor"
  | .transforming _ _ => "TransformingExecutor"
  | .secureFederated _ _ => "SecureFederatedExecutor"

/-- Check a predicate on the attributes of every node of the tree. -/
def allAttrs {α : Type} (p : α → Bool) (t : ExecutorTree α) : Bool :=
  p (attrsOf t) && ((recursion_strategy t).attach.map (fun c => allAttrs p c.1)).all id
termination_by sizeOf t
decreasing_by exact sizeOf_lt_of_mem_strategy c.2

/-- Map over every node's attribute payload, preserving the tree structure. -/
def mapAttrs {α β : Type} (f : α → β) : ExecutorTree α → ExecutorTree β
  | .caching a t => .caching (f a) (mapAttrs f t)
  | .composing a p cs =>
      .composing (f a) (mapAttrs f p) (cs.attach.map (fun c => mapAttrs f c.1))
  | .threadDelegating a t => .threadDelegating (f a) (mapAttrs f t)
  | .eagerTF a => .eagerTF (f a)
  | .federating a u sv cl =>
      .federating (f a) (u.attach.map (fun c => mapAttrs f c.1))
        (sv.attach.map (fun c => mapAttrs f c.1)) (cl.attach.map (fun c => mapAttrs f c.1))
  | .referenceResolving a t => .referenceResolving (f a) (mapAttrs f t)
  | .remote a => .remote (f a)
  | .transforming a t => .transforming (f a) (mapAttrs f t)
  | .secureFederated a t => .secureFederated (f a) (mapAttrs f t)
termination_by t => sizeOf t
decreasing_by
  all_goals first
    | (have h1 := List.sizeOf_lt_of_mem c.2; simp; all_goals omega)
    | (simp; all_goals omega)

/-- The structural skeleton of a tree (attributes erased): two trees with equal
skeletons have the same node count and the same child ordering everywhere. -/
def shapeOf {α : Type} (t : ExecutorTree α) : ExecutorTree Unit :=
  mapAttrs (fun _ => ()) t

/-- The mutation MonkeyPatchVisitor.visit_before performs on one executor
(logging_helpers.py lines 158-161): assign the `stack_level` attribute from the
visitor's level counter, then `monkey_patch_executor`. -/
def patch_node (level : Nat) (a : NodeAttrs) : NodeAttrs :=
  monkey_patch_executor { a with stack_level := some level }

/-- monkey_patch_executor_stack (logging_helpers.py lines 154-165), as the tree
transformation it effects: the MonkeyPatchVisitor increments its level counter
in `visit_before` and decrements it in `visit_after`, so each node is patched
exactly once, at level equal to its depth; the in-place attribute mutation is
modeled as a rebuild of the tree. -/
def monkey_patch_stack_aux (level : Nat) :
    ExecutorTree NodeAttrs → ExecutorTree NodeAttrs
  | .caching a t => .caching (patch_node level a) (monkey_patch_stack_aux (level + 1) t)
  | .composing a p cs =>
      .composing (patch_node level a) (monkey_patch_stack_aux (level + 1) p)
        (cs.attach.map (fun c => monkey_patch_stack_aux (level + 1) c.1))
  | .threadDelegating a t =>
      .threadDelegating (patch_node level a) (monkey_patch_stack_aux (level + 1) t)
  | .eagerTF a => .eagerTF (patch_node level a)
  | .federating a u sv cl =>
      .federating (patch_node level a)
        (u.attach.map (fun c => monkey_patch_stack_aux (level + 1) c.1))
        (sv.attach.map (fun c => monkey_patch_stack_aux (level + 1) c.1))
        (cl.attach.map (fun c => monkey_patch_stack_aux (level + 1) c.1))
  | .referenceResolving a t =>
      .referenceResolving (patch_node level a) (monkey_patch_stack_aux (level + 1) t)
  | .remote a => .remote (patch_node level a)
  | .transforming a t => .transforming (patch_node level a) (monkey_patch_stack_aux (level + 1) t)
  | .secureFederated a t =>
      .secureFederated (patch_node level a) (monkey_patch_stack_aux (level + 1) t)
termination_by t => sizeOf t
decreasing_by
  all_goals first
    | (have h1 := List.sizeOf_lt_of_mem c.2; simp; all_goals omega)
    | (simp; all_goals omega)

/-- The instrumentation pass on a whole stack, starting at level 0. -/
def monkey_patch_executor_stack (t : ExecutorTree NodeAttrs) : ExecutorTree NodeAttrs :=
  monkey_patch_stack_aux 0 t

/-- dump_executor_stack (logging_helpers.py lines 196-210): the lines the
DumpVisitor prints, one per node in visit order, indented by depth.  (The
`hash(executor)` part of each line is object identity, display-only, and
omitted here.) -/
def dump_lines_aux {α : Type} (level : Nat) (t : ExecutorTree α) : List String :=
  (indentation level ++ kindName t) ::
    ((recursion_strategy t).attach.map (fun c => dump_lines_aux (level + 1) c.1)).flatten
termination_by sizeOf t
decreasing_by exact sizeOf_lt_of_mem_strategy c.2

/-- dumping_executor_fn (logging_helpers.py lines 213-219): decorates a
stage-tree factory so that it additionally prints a banner and the tree dump;
the stack itself is returned unchanged.  A factory maps a client-topology
`mapping` to a stack plus whatever it prints while building. -/
def dumping_executor_fn {μ : Type}
    (executor_fn : μ → ExecutorTree NodeAttrs × List String) :
    μ → ExecutorTree NodeAttrs × List String :=
  fun mapping =>
    let r := executor_fn mapping
    (r.1, r.2 ++ ["Created executor stack"] ++ dump_lines_aux 0 r.1)

/-- monkey_patching_executor_fn (logging_helpers.py lines 222-227): decorates a
stage-tree factory so that the freshly built stack is instrumented before being
returned. -/
def monkey_patching_executor_fn {μ : Type}
    (executor_fn : μ → ExecutorTree NodeAttrs × List String) :
    μ → ExecutorTree NodeAttrs × List String :=
  fun mapping =>
    let r := executor_fn mapping
    (monkey_patch_executor_stack r.1, r.2)

/-- A node whose operations were never patched: no `_real_*` attribute saved,
all four operation attributes still the class implementations. -/
def unpatchedAttrs (a : NodeAttrs) : Bool :=
  decide (a.real_create_value = none) && decide (a.create_value_slot = .original) &&
  decide (a.real_create_call = none) && decide (a.create_call_slot = .original) &&
  decide (a.real_create_tuple = none) && decide (a.create_tuple_slot = .original) &&
  decide (a.real_create_selection = none) && decide (a.create_selection_slot = .original)

/-- A node whose operations are wrapped exactly once: every current slot is a
wrapper and every saved `_real_*` slot is the original implementation (a
double-wrapped node would instead have `_real_* = some .wrapper`). -/
def wrappedOnceAttrs (a : NodeAttrs) : Bool :=
  decide (a.real_create_value = some .original) && decide (a.create_value_slot = .wrapper) &&
  decide (a.real_create_call = some .original) && decide (a.create_call_slot = .wrapper) &&
  decide (a.real_create_tuple = some .original) && decide (a.create_tuple_slot = .wrapper) &&
  decide (a.real_create_selection = some .original) && decide (a.create_selection_slot = .wrapper)

/-- `_complete_stack` of `custom_executor_stacks.py` (lines 16-22 / 41-47): a
ReferenceResolvingExecutor wrapper (the Caching / Concurrent layers are
commented out in the source). -/
def complete_stack (ex : ExecutorTree NodeAttrs) : ExecutorTree NodeAttrs :=
  .referenceResolving freshAttrs ex

/-- `_create_bottom_stack` (custom_executor_stacks.py lines 24-25 / 49-50). -/
def create_bottom_stack : ExecutorTree NodeAttrs :=
  complete_stack (.eagerTF freshAttrs)

/-- builtin_executor_stack(num_clients) (custom_executor_stacks.py lines
11-34): the returned factory ignores its mapping and builds
`_complete_stack(FederatingExecutor({CLIENTS: [bottom]*n, SERVER: bottom,
None: bottom}))` with fresh bottom stacks. -/
def builtin_executor_stack (num_clients : Nat) {μ : Type} :
    μ → ExecutorTree NodeAttrs × List String :=
  fun _ =>
    (complete_stack (.federating freshAttrs
        [create_bottom_stack]
        [create_bottom_stack]
        (List.replicate num_clients create_bottom_stack)), [])

/-- secure_executor_stack(num_clients) (custom_executor_stacks.py lines 37-60):
as `builtin_executor_stack` but with a SecureFederatedExecutor wrapped around
the FederatingExecutor. -/
def secure_executor_stack (num_clients : Nat) {μ : Type} :
    μ → ExecutorTree NodeAttrs × List String :=
  fun _ =>
    (complete_stack (.secureFederated freshAttrs (.federating freshAttrs
        [create_bottom_stack]
        [create_bottom_stack]
        (List.replicate num_clients create_bottom_stack))), [])

end LoggingHelpers

namespace SecureFederatedExecutorModel

open LoggingHelpers

/-- The executor-value universe for the `secure_federated_executor.py` module:
a value is either an (abstract) value produced by the inner target executor —
carrying its opaque `type_signature` display string and the materialized
result its `compute` resolves to — or a `SecureFederatedExecutorValue`
(lines 11-23) wrapping exactly one inner value. -/
inductive ExecutorValue where
  | base (typeSig : String) (result : PyObj)
  | secure (inner : ExecutorValue)

/-- SecureFederatedExecutorValue.type_signature (lines 21-23): forwards the
inner value. -/
def type_signature : ExecutorValue → String
  | .base ts _ => ts
  | .secure v => type_signature v

/-- What awaiting a `compute()` coroutine yields: a materialized result, or —
when an `async def` returns a coroutine without awaiting it — the still
un-awaited coroutine object of the inner value's `compute`. -/
inductive ComputeResult where
  | value (v : PyObj)
  | coroutineOf (inner : ExecutorValue)

/-- Awaiting `compute()` (the printed lines are returned alongside).  For a
base value this materializes the result.  For a `SecureFederatedExecutorValue`
(lines 17-19) the body prints "compute" and executes
`return self._value.compute()` — the call is not awaited, so the caller
receives the inner coroutine object, not the materialized result. -/
def compute : ExecutorValue → List String × ComputeResult
  | .base _ r => ([], .value r)
  | .secure v => (["compute"], .coroutineOf v)

/-- The `elements` argument of `create_tuple`: either a single value object or
an ordered sequence of (optionally named) element values. -/
inductive Elements where
  | single (v : ExecutorValue)
  | seq (xs : List (Option String × ExecutorValue))

/-- The runtime type name of the `elements` argument, for the debug print at
line 52. -/
def Elements.pyTypeName : Elements → String
  | .single (.secure _) => "SecureFederatedExecutorValue"
  | .single (.base _ _) => "ExecutorValue"
  | .seq _ => "list"

/-- The inner target executor (`self._target_executor`), abstract: the four
operations are arbitrary functions into inner values. -/
structure Executor where
  create_value : PyObj → PyObj → ExecutorValue
  create_call : ExecutorValue → Option ExecutorValue → ExecutorValue
  create_tuple : Elements → ExecutorValue
  create_selection : ExecutorValue → Option Int → Option String → ExecutorValue

/-- SecureFederatedExecutor.create_value (lines 31-41): inspect the incoming
value for the IntrinsicDef / federated_mean markers (emitting a diagnostic
print when matched), delegate to the target, wrap the result. -/
def secure_create_value (tgt : Executor) (value type_spec : PyObj) :
    List String × ExecutorValue :=
  let p1 : List String :=
    match value with
    | .intrinsicDef u ts a => ["*** " ++ pyStr (.intrinsicDef u ts a)]
    | _ => []
  let p2 : List String :=
    match value with
    | .computationPb w uri a ty =>
        if w = "intrinsic" ∧ uri = "federated_mean" then
          ["*** " ++ pyStr (.computationPb w uri a ty)]
        else []
    | _ => []
  (p1 ++ p2, .secure (tgt.create_value value type_spec))

/-- SecureFederatedExecutor.create_call (lines 43-49): asserts both `comp` and
(when present) `arg` are SecureFederatedExecutorValue, unwraps them, delegates,
wraps the result. -/
def secure_create_call (tgt : Executor) (comp : ExecutorValue)
    (arg : Option ExecutorValue) : Except PyErr ExecutorValue :=
  match comp with
  | .secure c =>
      match arg with
      | none => .ok (.secure (tgt.create_call c none))
      | some (.secure a) => .ok (.secure (tgt.create_call c (some a)))
      | some _ => .error "AssertionError"
  | _ => .error "AssertionError"

/-- SecureFederatedExecutor.create_tuple (lines 51-56): unwraps `elements` only
when the argument as a whole is a SecureFederatedExecutorValue, delegates,
wraps the result.  The two debug prints are returned alongside (the element
repr of the second print is display-only and omitted). -/
def secure_create_tuple (tgt : Executor) (elements : Elements) :
    List String × ExecutorValue :=
  let dbg : List String :=
    ["TYPE TYPW TPYE " ++ elements.pyTypeName, "ELEMENTS EKECSCDS"]
  let elements2 : Elements :=
    match elements with
    | .single (.secure v) => .single v
    | e => e
  (dbg, .secure (tgt.create_tuple elements2))

/-- SecureFederatedExecutor.create_selection (lines 58-59): delegates to the
target and returns its result directly. -/
def secure_create_selection (tgt : Executor) (source : ExecutorValue)
    (index : Option Int) (name : Option String) : ExecutorValue :=
  tgt.create_selection source index name

/-- Whether a value is a SecureFederatedExecutorValue. -/
def isSecureValue : ExecutorValue → Bool
  | .secure _ => true
  | .base _ _ => false

end SecureFederatedExecutorModel

namespace Inputs

open LoggingHelpers SecureFederatedExecutorModel

/-- A concrete executor display identity, for concrete runs. -/
def exInfo0 : ExecutorInfo := ⟨"EagerTFExecutor", 1234, 3⟩

/-- A concrete starting state: the imported module default (`CALL_LEVEL`
strategy, counter at 0, nothing logged yet). -/
def st0 : LogState := ⟨.CALL_LEVEL, 0, []⟩

/-- A two-argument delegate that raises immediately (state untouched). -/
def raisingDelegate2 : PyObj → PyObj → LogState → RunResult PyObj :=
  fun _ _ s => .done s (.error "boom")

/-- A one-argument delegate that raises immediately (state untouched). -/
def raisingDelegate1 : PyObj → LogState → RunResult PyObj :=
  fun _ s => .done s (.error "boom")

/-- A three-argument delegate that raises immediately (state untouched). -/
def raisingDelegate3 : PyObj → PyObj → PyObj → LogState → RunResult PyObj :=
  fun _ _ _ s => .done s (.error "boom")

/-- A two-argument delegate that returns normally, reporting as its result the
call level it observed when invoked (state otherwise untouched). -/
def levelProbe2 : PyObj → PyObj → LogState → RunResult PyObj :=
  fun _ _ s => .done s (.ok (.pyFloat (toString s.callLevel)))

/-- A one-argument delegate reporting the call level it observed. -/
def levelProbe1 : PyObj → LogState → RunResult PyObj :=
  fun _ s => .done s (.ok (.pyFloat (toString s.callLevel)))

/-- A three-argument delegate reporting the call level it observed. -/
def levelProbe3 : PyObj → PyObj → PyObj → LogState → RunResult PyObj :=
  fun _ _ _ s => .done s (.ok (.pyFloat (toString s.callLevel)))

/-- A two-argument delegate that returns `None` normally (state untouched). -/
def okDelegate2 : PyObj → PyObj → LogState → RunResult PyObj :=
  fun _ _ s => .done s (.ok .pyNone)

/-- A concrete inner target executor whose operations return distinct base
values. -/
def tgt0 : SecureFederatedExecutorModel.Executor :=
  ⟨fun _ _ => .base "Tcv" .pyNone,
   fun _ _ => .base "Tcc" .pyNone,
   fun _ => .base "Tct" .pyNone,
   fun _ _ _ => .base "Tcs" .pyNone⟩

end Inputs

namespace Proofs

open LoggingHelpers

/-- Unfolding of `visit_executor_stack` with the `attach` plumbing removed. -/
theorem visit_executor_stack_eq {σ α : Type} (v : ExecutorStackVisitor σ α)
    (t : ExecutorTree α) (s : σ) :
    visit_executor_stack v t s =
      v.visit_after
        ((recursion_strategy t).foldl (fun acc c => visit_executor_stack v c acc)
          (v.visit_before s t)) t := by
  rw [visit_executor_stack]
  exact congrArg (fun x => v.visit_after x t)
    (List.foldl_attach (recursion_strategy t)
      (fun acc c => visit_executor_stack v c acc) (v.visit_before s t))

/-- Unfolding of `dfsEvents` with the `attach` plumbing removed. -/
theorem dfsEvents_eq {α : Type} (t : ExecutorTree α) :
    dfsEvents t =
      .before t :: (((recursion_strategy t).map dfsEvents).flatten ++ [.after t]) := by
  rw [dfsEvents, List.attach_map_val]

/-- Unfolding of `nodeCount` with the `attach` plumbing removed. -/
theorem nodeCount_eq {α : Type} (t : ExecutorTree α) :
    nodeCount t = 1 + ((recursion_strategy t).map nodeCount).sum := by
  rw [nodeCount, List.attach_map_val]

/-- Folding a visitor over the concatenated canonical traces of a list of
subtrees equals visiting the subtrees left to right, provided each subtree
already satisfies the visit/trace correspondence. -/
theorem foldl_children_eq {σ α : Type} (v : ExecutorStackVisitor σ α)
    (cs : List (ExecutorTree α))
    (H : ∀ c ∈ cs, ∀ s1 : σ,
      visit_executor_stack v c s1 = (dfsEvents c).foldl (applyEvent v) s1)
    (s : σ) :
    cs.foldl (fun acc c => visit_executor_stack v c acc) s =
      ((cs.map dfsEvents).flatten).foldl (applyEvent v) s := by
  induction cs generalizing s with
  | nil => rfl
  | cons c cs ih =>
    rw [List.foldl_cons, List.map_cons, List.flatten_cons, List.foldl_append,
      H c (List.mem_cons_self c cs)]
    exact ih (fun c2 hc2 s2 => H c2 (List.mem_cons_of_mem c hc2) s2) _

/-- The visitor contract of `visit_executor_stack`: any visitor's run over a
stage tree is exactly the fold of its two callbacks over the canonical
before/children-in-strategy-order/after event sequence. -/
theorem visit_eq_dfs {σ α : Type} (v : ExecutorStackVisitor σ α)
    (t : ExecutorTree α) (s : σ) :
    visit_executor_stack v t s = (dfsEvents t).foldl (applyEvent v) s := by
  rw [visit_executor_stack_eq, dfsEvents_eq, List.foldl_cons, List.foldl_append]
  simp only [applyEvent, List.foldl_cons, List.foldl_nil]
  refine congrArg (fun x => v.visit_after x t) ?_
  exact foldl_children_eq v (recursion_strategy t)
    (fun c hc s1 => visit_eq_dfs v c s1) (v.visit_before s t)
termination_by sizeOf t
decreasing_by exact sizeOf_lt_of_mem_strategy hc

/-- Folding the before-counting visitor over any event list adds the number of
`before` events. -/
theorem foldl_beforeCount {α : Type} (es : List (VisitEvent α)) (n : Nat) :
    es.foldl (applyEvent (beforeCountVisitor α)) n = n + es.countP isBeforeEvent := by
  induction es generalizing n with
  | nil => simp
  | cons e es ih =>
    cases e with
    | before t2 =>
      rw [List.foldl_cons, List.countP_cons]
      have h1 : applyEvent (beforeCountVisitor α) n (.before t2) = n + 1 := rfl
      rw [h1, ih]
      simp [isBeforeEvent]
      omega
    | after t2 =>
      rw [List.foldl_cons, List.countP_cons]
      have h1 : applyEvent (beforeCountVisitor α) n (.after t2) = n := rfl
      rw [h1, ih]
      simp [isBeforeEvent]

/-- Folding the after-counting visitor over any event list adds the number of
`after` events. -/
theorem foldl_afterCount {α : Type} (es : List (VisitEvent α)) (n : Nat) :
    es.foldl (applyEvent (afterCountVisitor α)) n = n + es.countP isAfterEvent := by
  induction es generalizing n with
  | nil => simp
  | cons e es ih =>
    cases e with
    | before t2 =>
      rw [List.foldl_cons, List.countP_cons]
      have h1 : applyEvent (afterCountVisitor α) n (.before t2) = n := rfl
      rw [h1, ih]
      simp [isAfterEvent]
    | after t2 =>
      rw [List.foldl_cons, List.countP_cons]
      have h1 : applyEvent (afterCountVisitor α) n (.after t2) = n + 1 := rfl
      rw [h1, ih]
      simp [isAfterEvent]
      omega

/-- The canonical trace contains exactly one `before` event per node. -/
theorem dfs_countP_before {α : Type} (t : ExecutorTree α) :
    (dfsEvents t).countP isBeforeEvent = nodeCount t := by
  rw [dfsEvents_eq, nodeCount_eq, List.countP_cons, List.countP_append,
    List.countP_flatten, List.map_map]
  have h1 : ((recursion_strategy t).map (List.countP isBeforeEvent ∘ dfsEvents)) =
      (recursion_strategy t).map nodeCount := by
    refine List.map_congr_left (fun c hc => ?_)
    exact dfs_countP_before c
  simp [isBeforeEvent, h1]
  omega
termination_by sizeOf t
decreasing_by exact sizeOf_lt_of_mem_strategy hc

/-- The canonical trace contains exactly one `after` event per node. -/
theorem dfs_countP_after {α : Type} (t : ExecutorTree α) :
    (dfsEvents t).countP isAfterEvent = nodeCount t := by
  rw [dfsEvents_eq, nodeCount_eq, List.countP_cons, List.countP_append,
    List.countP_flatten, List.map_map]
  have h1 : ((recursion_strategy t).map (List.countP isAfterEvent ∘ dfsEvents)) =
      (recursion_strategy t).map nodeCount := by
    refine List.map_congr_left (fun c hc => ?_)
    exact dfs_countP_after c
  simp [isAfterEvent, h1]
  omega
termination_by sizeOf t
decreasing_by exact sizeOf_lt_of_mem_strategy hc

/-- The recursion strategy commutes with the instrumentation pass: the patched
node's children are the patched children, in the same order. -/
theorem strategy_patch (lvl : Nat) (t : ExecutorTree NodeAttrs) :
    recursion_strategy (monkey_patch_stack_aux lvl t) =
      (recursion_strategy t).map (monkey_patch_stack_aux (lvl + 1)) := by
  cases t <;> simp [monkey_patch_stack_aux, recursion_strategy, List.attach_map_val]

/-- The recursion strategy commutes with an attribute map. -/
theorem strategy_mapAttrs {α β : Type} (f : α → β) (t : ExecutorTree α) :
    recursion_strategy (mapAttrs f t) = (recursion_strategy t).map (mapAttrs f) := by
  cases t <;> simp [mapAttrs, recursion_strategy, List.attach_map_val]

/-- The instrumentation pass does not change the structural skeleton. -/
theorem shapeOf_patch (lvl : Nat) (t : ExecutorTree NodeAttrs) :
    shapeOf (monkey_patch_stack_aux lvl t) = shapeOf t := by
  cases t <;>
    simp only [monkey_patch_stack_aux, shapeOf, mapAttrs, List.attach_map_val,
      List.map_map, Function.comp] <;>
    congr 1 <;>
    first
      | rfl
      | exact shapeOf_patch (lvl + 1) _
      | exact List.map_congr_left (fun c hc => shapeOf_patch (lvl + 1) c)
termination_by sizeOf t
decreasing_by
  all_goals first
    | (have h1 := List.sizeOf_lt_of_mem hc; simp; all_goals omega)
    | (simp; all_goals omega)

/-- The instrumentation pass does not change the node count. -/
theorem nodeCount_patch (lvl : Nat) (t : ExecutorTree NodeAttrs) :
    nodeCount (monkey_patch_stack_aux lvl t) = nodeCount t := by
  rw [nodeCount_eq, nodeCount_eq, strategy_patch, List.map_map]
  have h1 : (recursion_strategy t).map (nodeCount ∘ monkey_patch_stack_aux (lvl + 1)) =
      (recursion_strategy t).map nodeCount :=
    List.map_congr_left (fun c hc => nodeCount_patch (lvl + 1) c)
  rw [h1]
termination_by sizeOf t
decreasing_by exact sizeOf_lt_of_mem_strategy hc

/-- Unfolding of `allAttrs` with the `attach` plumbing removed. -/
theorem allAttrs_eq {α : Type} (p : α → Bool) (t : ExecutorTree α) :
    allAttrs p t = (p (attrsOf t) && ((recursion_strategy t).map (allAttrs p)).all id) := by
  rw [allAttrs, List.attach_map_val]

/-- The attributes of a patched node are the patched attributes. -/
theorem attrsOf_patch (lvl : Nat) (t : ExecutorTree NodeAttrs) :
    attrsOf (monkey_patch_stack_aux lvl t) = patch_node lvl (attrsOf t) := by
  cases t <;> simp [monkey_patch_stack_aux, attrsOf]

/-- Patching a previously unpatched node wraps each operation exactly once:
every current slot becomes a wrapper whose saved `_real_*` slot is the
original implementation. -/
theorem patch_node_wrappedOnce (lvl : Nat) (a : NodeAttrs)
    (h : unpatchedAttrs a = true) :
    wrappedOnceAttrs (patch_node lvl a) = true := by
  simp only [unpatchedAttrs, Bool.and_eq_true, decide_eq_true_eq] at h
  obtain ⟨⟨⟨⟨⟨⟨⟨hv1, hv2⟩, hc1⟩, hc2⟩, ht1⟩, ht2⟩, hs1⟩, hs2⟩ := h
  simp [wrappedOnceAttrs, patch_node, monkey_patch_executor, hv2, hc2, ht2, hs2]

/-- Applying the instrumentation pass to a stack of fresh nodes wraps every
node's operations exactly once. -/
theorem allAttrs_patch (lvl : Nat) (t : ExecutorTree NodeAttrs)
    (h : allAttrs unpatchedAttrs t = true) :
    allAttrs wrappedOnceAttrs (monkey_patch_stack_aux lvl t) = true := by
  rw [allAttrs_eq] at h
  rw [allAttrs_eq, attrsOf_patch, strategy_patch, List.map_map]
  simp only [Bool.and_eq_true] at h
  obtain ⟨h1, h2⟩ := h
  simp only [Bool.and_eq_true]
  refine ⟨patch_node_wrappedOnce lvl (attrsOf t) h1, ?_⟩
  simp only [List.all_eq_true] at h2 ⊢
  intro b hb
  simp only [List.mem_map, Function.comp] at hb
  obtain ⟨c, hc, rfl⟩ := hb
  have hcall : allAttrs unpatchedAttrs c = true := by
    have := h2 (allAttrs unpatchedAttrs c) (List.mem_map_of_mem _ hc)
    simpa using this
  simpa using allAttrs_patch (lvl + 1) c hcall
termination_by sizeOf t
decreasing_by exact sizeOf_lt_of_mem_strategy hc

end Proofs

namespace Claims

open LoggingHelpers

open SecureFederatedExecutorModel

/-- C4: for every value whose runtime type has no registered formatting
strategy, `format_object` takes the generic `DEFAULT_STRATEGY` branch of the
`FORMATTING_STRATEGIES.get` lookup (it cannot raise: the lookup always
succeeds via the default, which is a total string formatter) and the result is
a non-empty string. -/
theorem c4_format_object_fallback_total (x : PyObj)
    (h : hasRegisteredFormatter x = false) :
    format_object x = .str (DEFAULT_STRATEGY x) ∧
    ∃ s, format_object x = .str s ∧ 0 < s.length := by
  cases x
  case other tyName r =>
    refine ⟨by rw [format_object], ⟨DEFAULT_STRATEGY (.other tyName r), by rw [format_object], ?_⟩⟩
    simp only [DEFAULT_STRATEGY, pyStr, pyTypeStr, String.length_append]
    have hgt : (">").length = 1 := rfl
    omega
  all_goals exact absurd h (by simp [hasRegisteredFormatter])

/-- C2: for every root stage of the tree universe (every node type of which
has a registered recursion strategy), `visit_executor_stack` equals the fold of
the visitor's callbacks over the canonical event sequence `dfsEvents`, which
calls `visit_before` on each node exactly once, then handles the children in
exactly the order the node's recursion strategy returns them, then calls
`visit_after` exactly once; the total number of before callbacks equals the
total number of after callbacks equals the node count. -/
theorem c2_visitor_pre_post_order {σ α : Type} (v : LoggingHelpers.ExecutorStackVisitor σ α)
    (t : LoggingHelpers.ExecutorTree α) (s : σ) :
    visit_executor_stack v t s = (dfsEvents t).foldl (applyEvent v) s
    ∧ dfsEvents t =
        .before t :: (((recursion_strategy t).map dfsEvents).flatten ++ [.after t])
    ∧ visit_executor_stack (beforeCountVisitor α) t 0 = nodeCount t
    ∧ visit_executor_stack (afterCountVisitor α) t 0 = nodeCount t := by
  refine ⟨Proofs.visit_eq_dfs v t s, Proofs.dfsEvents_eq t, ?_, ?_⟩
  · rw [Proofs.visit_eq_dfs, Proofs.foldl_beforeCount, Proofs.dfs_countP_before,
      Nat.zero_add]
  · rw [Proofs.visit_eq_dfs, Proofs.foldl_afterCount, Proofs.dfs_countP_after,
      Nat.zero_add]

/-- C7: the recursion strategy registered for a FederatingExecutor returns the
unconditional group, then the server group, then the client group, each group
order preserved (every client keeps its declared index, offset by the two
leading groups), and the visitor's canonical traversal therefore processes the
groups in exactly that order. -/
theorem c7_federating_children_order {α : Type} (a : α)
    (u sv cl : List (LoggingHelpers.ExecutorTree α)) :
    recursion_strategy (.federating a u sv cl) = u ++ sv ++ cl
    ∧ (recursion_strategy (.federating a u sv cl)).take u.length = u
    ∧ ((recursion_strategy (.federating a u sv cl)).drop u.length).take sv.length = sv
    ∧ (recursion_strategy (.federating a u sv cl)).drop (u.length + sv.length) = cl
    ∧ (∀ i : Nat,
        (recursion_strategy (.federating a u sv cl))[u.length + sv.length + i]? = cl[i]?)
    ∧ dfsEvents (.federating a u sv cl) =
        .before (.federating a u sv cl) ::
          ((u.map dfsEvents).flatten ++ (sv.map dfsEvents).flatten ++
            ((cl.map dfsEvents).flatten ++ [.after (.federating a u sv cl)])) := by
  refine ⟨rfl, ?_, ?_, ?_, ?_, ?_⟩
  · show ((u ++ sv) ++ cl).take u.length = u
    rw [List.append_assoc, List.take_left]
  · show (((u ++ sv) ++ cl).drop u.length).take sv.length = sv
    rw [List.append_assoc, List.drop_left, List.take_left]
  · show ((u ++ sv) ++ cl).drop (u.length + sv.length) = cl
    rw [← List.length_append, List.drop_left]
  · intro i
    show ((u ++ sv) ++ cl)[u.length + sv.length + i]? = cl[i]?
    rw [List.getElem?_append_right (by simp)]
    congr 1
    simp
  · rw [Proofs.dfsEvents_eq]
    simp [recursion_strategy, List.map_append, List.flatten_append, List.append_assoc]

/-- C8: for every stage-tree factory producing fresh (never patched) stacks,
composing the dumping decorator and the instrumenting decorator in either
order yields the same stack (hence structurally identical trees: equal
skeletons, equal node counts, equal child ordering), and in both orders every
node's four operations end up wrapped exactly once — each current operation
slot is a wrapper whose saved `_real_*` slot is the original implementation,
never a second wrapper. -/
theorem c8_decorators_compose {μ : Type}
    (f : μ → LoggingHelpers.ExecutorTree LoggingHelpers.NodeAttrs × List String) (m : μ)
    (hfresh : allAttrs unpatchedAttrs (f m).1 = true) :
    ((dumping_executor_fn (monkey_patching_executor_fn f)) m).1 =
      ((monkey_patching_executor_fn (dumping_executor_fn f)) m).1
    ∧ shapeOf ((dumping_executor_fn (monkey_patching_executor_fn f)) m).1 = shapeOf (f m).1
    ∧ nodeCount ((dumping_executor_fn (monkey_patching_executor_fn f)) m).1 = nodeCount (f m).1
    ∧ allAttrs wrappedOnceAttrs
        ((dumping_executor_fn (monkey_patching_executor_fn f)) m).1 = true
    ∧ allAttrs wrappedOnceAttrs
        ((monkey_patching_executor_fn (dumping_executor_fn f)) m).1 = true := by
  refine ⟨rfl, ?_, ?_, ?_, ?_⟩
  · exact Proofs.shapeOf_patch 0 (f m).1
  · exact Proofs.nodeCount_patch 0 (f m).1
  · exact Proofs.allAttrs_patch 0 (f m).1 hfresh
  · exact Proofs.allAttrs_patch 0 (f m).1 hfresh

/-- C8 witness: the builtin three-client stack factory is fresh, and after
composing the two decorators every node is wrapped exactly once. -/
theorem c8_decorators_compose_witness :
    allAttrs unpatchedAttrs ((@builtin_executor_stack 3 Unit) ()).1 = true
    ∧ allAttrs wrappedOnceAttrs
        ((dumping_executor_fn (monkey_patching_executor_fn
          (@builtin_executor_stack 3 Unit))) ()).1 = true := by
  have hfresh : allAttrs unpatchedAttrs ((@builtin_executor_stack 3 Unit) ()).1 = true := by
    simp [builtin_executor_stack, complete_stack, create_bottom_stack,
      Proofs.allAttrs_eq, recursion_strategy, attrsOf, unpatchedAttrs, freshAttrs,
      List.replicate_succ]
  exact ⟨hfresh,
    (c8_decorators_compose (@builtin_executor_stack 3 Unit) () hfresh).2.2.2.1⟩

/-- C1 counterexample: the claim fails on the error path.  With a delegate
that raises (leaving the counter where it found it), the patched
`create_value` ends with `_CURRENT_CALL_LEVEL` one above its pre-call value —
there is no try/finally, so the decrement on the failing path is skipped — and
the operation indeed propagated the error (no normal result). -/
theorem c1_counter_not_restored_on_error :
    (create_value_wrapper Inputs.exInfo0 Inputs.raisingDelegate2
        .pyNone .pyNone Inputs.st0).finalState.callLevel = Inputs.st0.callLevel + 1
    ∧ (create_value_wrapper Inputs.exInfo0 Inputs.raisingDelegate2
        .pyNone .pyNone Inputs.st0).finalState.callLevel ≠ Inputs.st0.callLevel
    ∧ (create_value_wrapper Inputs.exInfo0 Inputs.raisingDelegate2
        .pyNone .pyNone Inputs.st0).okValue = none := by
  refine ⟨rfl, ?_, rfl⟩
  intro h
  exact absurd h (by decide)

/-- C1 (amended): on a single non-concurrent chain the counter is restored
only on the success path of `create_value`/`create_call` (and trivially by
`create_tuple`/`create_selection`, which never touch it); on the error path
`create_value`/`create_call` leave the counter one above its pre-call value,
because the decrement after the delegation is skipped when the error
propagates. -/
theorem c1_call_level_balance_amended :
    (∀ ex v ts s s3 r realV,
        realV v ts (create_value_entry ex v ts s) = .done s3 (.ok r) →
        s3.callLevel = s.callLevel + 1 →
        (create_value_wrapper ex realV v ts s).finalState.callLevel = s.callLevel)
    ∧ (∀ ex v ts s s3 e realV,
        realV v ts (create_value_entry ex v ts s) = .done s3 (.error e) →
        s3.callLevel = s.callLevel + 1 →
        (create_value_wrapper ex realV v ts s).finalState.callLevel = s.callLevel + 1)
    ∧ (∀ ex cp ag s s3 r realC,
        realC cp ag (create_call_entry ex cp ag s) = .done s3 (.ok r) →
        s3.callLevel = s.callLevel + 1 →
        (create_call_wrapper ex realC cp ag s).finalState.callLevel = s.callLevel)
    ∧ (∀ ex cp ag s s3 e realC,
        realC cp ag (create_call_entry ex cp ag s) = .done s3 (.error e) →
        s3.callLevel = s.callLevel + 1 →
        (create_call_wrapper ex realC cp ag s).finalState.callLevel = s.callLevel + 1)
    ∧ (∀ ex els s s3 res realT,
        realT els (pushLine s ⟨prefixStr ex s, "create_tuple call", [format_object els]⟩)
          = .done s3 res →
        s3.callLevel = s.callLevel →
        (create_tuple_wrapper ex realT els s).finalState.callLevel = s.callLevel)
    ∧ (∀ ex src idx nm s s3 res realS,
        realS src idx nm (pushLine s
            ⟨prefixStr ex s, "create_selection call", [format_object idx, format_object nm]⟩)
          = .done s3 res →
        s3.callLevel = s.callLevel →
        (create_selection_wrapper ex realS src idx nm s).finalState.callLevel = s.callLevel) := by
  refine ⟨?_, ?_, ?_, ?_, ?_, ?_⟩
  · intro ex v ts s s3 r realV hrun hlvl
    simp only [create_value_wrapper, hrun, RunResult.finalState, pushLine]
    omega
  · intro ex v ts s s3 e realV hrun hlvl
    simp only [create_value_wrapper, hrun, RunResult.finalState]
    omega
  · intro ex cp ag s s3 r realC hrun hlvl
    simp only [create_call_wrapper, hrun, RunResult.finalState, pushLine]
    omega
  · intro ex cp ag s s3 e realC hrun hlvl
    simp only [create_call_wrapper, hrun, RunResult.finalState]
    omega
  · intro ex els s s3 res realT hrun hlvl
    cases res with
    | ok r =>
        simp only [create_tuple_wrapper, hrun, RunResult.finalState]
        simp only [pushLine]
        omega
    | error e => simp only [create_tuple_wrapper, hrun, RunResult.finalState]; omega
  · intro ex src idx nm s s3 res realS hrun hlvl
    cases res with
    | ok r =>
        simp only [create_selection_wrapper, hrun, RunResult.finalState]
        simp only [pushLine]
        omega
    | error e => simp only [create_selection_wrapper, hrun, RunResult.finalState]; omega

/-- C1 witness: concrete runs of the amended statement — a succeeding
delegation restores the counter, a raising one leaves it at one. -/
theorem c1_call_level_balance_amended_witness :
    (create_value_wrapper Inputs.exInfo0 Inputs.okDelegate2
        .pyNone .pyNone Inputs.st0).finalState.callLevel = Inputs.st0.callLevel
    ∧ (create_value_wrapper Inputs.exInfo0 Inputs.raisingDelegate2
        .pyNone .pyNone Inputs.st0).finalState.callLevel = Inputs.st0.callLevel + 1
    ∧ (create_tuple_wrapper Inputs.exInfo0 Inputs.raisingDelegate1
        .pyNone Inputs.st0).finalState.callLevel = Inputs.st0.callLevel :=
  ⟨c1_call_level_balance_amended.1 Inputs.exInfo0 .pyNone .pyNone Inputs.st0 _ _
      Inputs.okDelegate2 rfl rfl,
   c1_call_level_balance_amended.2.1 Inputs.exInfo0 .pyNone .pyNone Inputs.st0 _ _
      Inputs.raisingDelegate2 rfl rfl,
   c1_call_level_balance_amended.2.2.2.2.1 Inputs.exInfo0 .pyNone Inputs.st0 _ _
      Inputs.raisingDelegate1 rfl rfl⟩

/-- C3 counterexample: the claim fails for `create_tuple` (and
`create_selection`): a delegate that reports the call level it observes sees
the pre-call level 0, not the incremented level 1 — the patched `create_tuple`
never touches `_CURRENT_CALL_LEVEL`. -/
theorem c3_tuple_does_not_increment_counterexample :
    (create_tuple_wrapper Inputs.exInfo0 Inputs.levelProbe1
        .pyNone Inputs.st0).okValue = some (.pyFloat "0")
    ∧ (create_tuple_wrapper Inputs.exInfo0 Inputs.levelProbe1
        .pyNone Inputs.st0).okValue ≠ some (.pyFloat (toString (Inputs.st0.callLevel + 1))) := by
  constructor
  · rfl
  · intro h
    rw [show (create_tuple_wrapper Inputs.exInfo0 Inputs.levelProbe1
        .pyNone Inputs.st0).okValue = some (.pyFloat "0") from rfl] at h
    rw [show toString (Inputs.st0.callLevel + 1) = "1" from rfl] at h
    simp only [Option.some.injEq, PyObj.pyFloat.injEq] at h
    exact absurd h (by decide)

/-- C3 (amended): the shared counter is incremented immediately before
delegation and decremented immediately after a normal return in the
instrumented `create_value` and `create_call` only; the instrumented
`create_tuple` and `create_selection` never modify the counter — their
delegate observes the unincremented pre-call level and the wrapper leaves the
delegate's final level untouched. -/
theorem c3_increment_only_value_and_call_amended :
    (∀ ex v ts (s : LogState),
        (create_value_wrapper ex Inputs.levelProbe2 v ts s).okValue
          = some (.pyFloat (toString (s.callLevel + 1))))
    ∧ (∀ ex cp ag (s : LogState),
        (create_call_wrapper ex Inputs.levelProbe2 cp ag s).okValue
          = some (.pyFloat (toString (s.callLevel + 1))))
    ∧ (∀ ex els (s : LogState),
        (create_tuple_wrapper ex Inputs.levelProbe1 els s).okValue
          = some (.pyFloat (toString s.callLevel)))
    ∧ (∀ ex src idx nm (s : LogState),
        (create_selection_wrapper ex Inputs.levelProbe3 src idx nm s).okValue
          = some (.pyFloat (toString s.callLevel)))
    ∧ (∀ ex v ts s s3 r realV,
        realV v ts (create_value_entry ex v ts s) = .done s3 (.ok r) →
        (create_value_wrapper ex realV v ts s).finalState.callLevel = s3.callLevel - 1)
    ∧ (∀ ex cp ag s s3 r realC,
        realC cp ag (create_call_entry ex cp ag s) = .done s3 (.ok r) →
        (create_call_wrapper ex realC cp ag s).finalState.callLevel = s3.callLevel - 1)
    ∧ (∀ ex els s s3 r realT,
        realT els (pushLine s ⟨prefixStr ex s, "create_tuple call", [format_object els]⟩)
          = .done s3 (.ok r) →
        (create_tuple_wrapper ex realT els s).finalState.callLevel = s3.callLevel)
    ∧ (∀ ex src idx nm s s3 r realS,
        realS src idx nm (pushLine s
            ⟨prefixStr ex s, "create_selection call", [format_object idx, format_object nm]⟩)
          = .done s3 (.ok r) →
        (create_selection_wrapper ex realS src idx nm s).finalState.callLevel = s3.callLevel) := by
  refine ⟨?_, ?_, ?_, ?_, ?_, ?_, ?_, ?_⟩
  · intro ex v ts s
    simp [create_value_wrapper, Inputs.levelProbe2, create_value_entry, pushLine,
      RunResult.okValue]
  · intro ex cp ag s
    simp [create_call_wrapper, Inputs.levelProbe2, create_call_entry, pushLine,
      RunResult.okValue]
  · intro ex els s
    simp [create_tuple_wrapper, Inputs.levelProbe1, pushLine, RunResult.okValue]
  · intro ex src idx nm s
    simp [create_selection_wrapper, Inputs.levelProbe3, pushLine, RunResult.okValue]
  · intro ex v ts s s3 r realV hrun
    simp only [create_value_wrapper, hrun, RunResult.finalState, pushLine]
  · intro ex cp ag s s3 r realC hrun
    simp only [create_call_wrapper, hrun, RunResult.finalState, pushLine]
  · intro ex els s s3 r realT hrun
    simp only [create_tuple_wrapper, hrun, RunResult.finalState]
    simp only [pushLine]
  · intro ex src idx nm s s3 r realS hrun
    simp only [create_selection_wrapper, hrun, RunResult.finalState]
    simp only [pushLine]

/-- C3 witness: concrete probe runs — the delegate of `create_value` observes
level 1 from the starting level 0, the delegate of `create_tuple` observes 0;
the success-path decrement applies only to `create_value`. -/
theorem c3_increment_only_value_and_call_amended_witness :
    (create_value_wrapper Inputs.exInfo0 Inputs.levelProbe2
        .pyNone .pyNone Inputs.st0).okValue
      = some (.pyFloat (toString (Inputs.st0.callLevel + 1)))
    ∧ (create_tuple_wrapper Inputs.exInfo0 Inputs.levelProbe1
        .pyNone Inputs.st0).okValue = some (.pyFloat (toString Inputs.st0.callLevel))
    ∧ (create_value_wrapper Inputs.exInfo0 Inputs.okDelegate2
        .pyNone .pyNone Inputs.st0).finalState.callLevel
      = (create_value_entry Inputs.exInfo0 .pyNone .pyNone Inputs.st0).callLevel - 1 :=
  ⟨c3_increment_only_value_and_call_amended.1 Inputs.exInfo0 .pyNone .pyNone Inputs.st0,
   c3_increment_only_value_and_call_amended.2.2.1 Inputs.exInfo0 .pyNone Inputs.st0,
   c3_increment_only_value_and_call_amended.2.2.2.2.1 Inputs.exInfo0 .pyNone .pyNone
      Inputs.st0 _ _ Inputs.okDelegate2 rfl⟩

/-- C4 witness: a concrete object of an unregistered runtime type. -/
theorem c4_format_object_fallback_total_witness :
    hasRegisteredFormatter (.other "dict" "mapping") = false ∧
    (format_object (.other "dict" "mapping") = .str (DEFAULT_STRATEGY (.other "dict" "mapping")) ∧
     ∃ s, format_object (.other "dict" "mapping") = .str s ∧ 0 < s.length) :=
  ⟨rfl, c4_format_object_fallback_total (.other "dict" "mapping") rfl⟩

end Claims

namespace Proofs

open LoggingHelpers

/-- A second monkey-patch pass on the same executor saves the wrapper itself
in all four `_real_*` slots (the first pass left the current slots holding
wrappers, and patching saves whatever the attribute currently holds). -/
theorem double_patch_saves_wrapper (a : NodeAttrs) :
    (monkey_patch_executor (monkey_patch_executor a)).real_create_value = some .wrapper
    ∧ (monkey_patch_executor (monkey_patch_executor a)).real_create_call = some .wrapper
    ∧ (monkey_patch_executor (monkey_patch_executor a)).real_create_tuple = some .wrapper
    ∧ (monkey_patch_executor (monkey_patch_executor a)).real_create_selection = some .wrapper := by
  simp [monkey_patch_executor]

/-- On a doubly patched executor, `create_value` re-enters the wrapper at
every delegation step — the wrapper resolves `_real_create_value` to the
wrapper itself at call time — so within any finite delegation budget the call
is still running; the state after exhausting a budget of `fuel` steps is
`fuel` iterations of the wrapper's pre-delegation transformation (one call
line printed and one counter increment per re-entry), and the original
operation's behavior `orig` is never consulted. -/
theorem run_create_value_double_patched_diverges
    (orig : PyObj → PyObj → LogState → RunResult PyObj) (ex : ExecutorInfo)
    (v ts : PyObj) (fuel : Nat) :
    ∀ s : LogState,
      run_create_value orig (monkey_patch_executor (monkey_patch_executor freshAttrs)) ex
        fuel .wrapper v ts s
        = .outOfFuel ((create_value_entry ex v ts)^[fuel] s) := by
  induction fuel with
  | zero => intro s; rfl
  | succ n ih =>
      intro s
      rw [run_create_value, create_value_wrapper]
      have hreal : (monkey_patch_executor (monkey_patch_executor freshAttrs)).real_create_value
          = some Slot.wrapper := rfl
      simp only [hreal, ih]
      rw [Function.iterate_succ_apply]

/-- On a singly patched executor, a `create_value` call is exactly one wrapper
layer around the original operation. -/
theorem run_create_value_single_patched (orig : PyObj → PyObj → LogState → RunResult PyObj)
    (ex : ExecutorInfo) (v ts : PyObj) (fuel : Nat) (s : LogState) :
    run_create_value orig (monkey_patch_executor freshAttrs) ex (fuel + 1) .wrapper v ts s
      = create_value_wrapper ex orig v ts s := by
  rw [run_create_value]
  have hreal : (monkey_patch_executor freshAttrs).real_create_value = some Slot.original := rfl
  simp only [hreal]
  simp only [run_create_value]

/-- Each wrapper re-entry increments the call-depth counter once. -/
theorem iterate_entry_callLevel (ex : ExecutorInfo) (v ts : PyObj) (fuel : Nat) :
    ∀ s : LogState,
      ((create_value_entry ex v ts)^[fuel] s).callLevel = s.callLevel + fuel := by
  induction fuel with
  | zero => intro s; simp
  | succ n ih =>
      intro s
      rw [Function.iterate_succ_apply, ih]
      simp [create_value_entry, pushLine]
      omega

/-- Each wrapper re-entry prints exactly one more call line. -/
theorem iterate_entry_log_length (ex : ExecutorInfo) (v ts : PyObj) (fuel : Nat) :
    ∀ s : LogState,
      ((create_value_entry ex v ts)^[fuel] s).log.length = s.log.length + fuel := by
  induction fuel with
  | zero => intro s; simp
  | succ n ih =>
      intro s
      rw [Function.iterate_succ_apply, ih]
      simp [create_value_entry, pushLine]
      omega

end Proofs

namespace Claims

open LoggingHelpers

open SecureFederatedExecutorModel

/-- C5: evaluation at the failing input.  `create_value`, `create_call` and
`create_tuple` wrap the delegated result in a `SecureFederatedExecutorValue`,
but `create_selection` returns the target's result unwrapped (for every target
and arguments); concretely, a selection result is not a secure value, and
feeding it back into `create_call` trips the executor's own assertion that
every circulating value is a `SecureFederatedExecutorValue`. -/
theorem c5_create_selection_not_wrapped :
    (∀ (tgt : Executor) (src : ExecutorValue) (idx : Option Int) (nm : Option String),
        secure_create_selection tgt src idx nm = tgt.create_selection src idx nm)
    ∧ (secure_create_value Inputs.tgt0 .pyNone .pyNone).2 = .secure (.base "Tcv" .pyNone)
    ∧ secure_create_call Inputs.tgt0 (.secure (.base "X" .pyNone)) none
        = .ok (.secure (.base "Tcc" .pyNone))
    ∧ (secure_create_tuple Inputs.tgt0 (.seq [])).2 = .secure (.base "Tct" .pyNone)
    ∧ secure_create_selection Inputs.tgt0 (.secure (.base "X" .pyNone)) none none
        = .base "Tcs" .pyNone
    ∧ isSecureValue (secure_create_selection Inputs.tgt0 (.secure (.base "X" .pyNone)) none none)
        = false
    ∧ secure_create_call Inputs.tgt0
        (secure_create_selection Inputs.tgt0 (.secure (.base "X" .pyNone)) none none) none
        = .error "AssertionError" :=
  ⟨fun _ _ _ _ => rfl, rfl, rfl, rfl, rfl, rfl, rfl⟩

/-- C6: evaluation at the failing input.  `type_signature` is forwarded from
the inner value (for every wrapped value), but awaiting the wrapper's
`compute` prints "compute" and yields the un-awaited coroutine object of the
inner value's `compute` — the body returns `self._value.compute()` without
awaiting it — which differs from the inner value's materialized result. -/
theorem c6_compute_not_forwarded :
    (∀ v : ExecutorValue, type_signature (.secure v) = type_signature v)
    ∧ (compute (.base "T" .pyNone)).2 = .value .pyNone
    ∧ (compute (.secure (.base "T" .pyNone))).2 = .coroutineOf (.base "T" .pyNone)
    ∧ (compute (.secure (.base "T" .pyNone))).1 = ["compute"]
    ∧ (compute (.secure (.base "T" .pyNone))).2 ≠ (compute (.base "T" .pyNone)).2 := by
  refine ⟨fun v => rfl, rfl, rfl, rfl, ?_⟩
  intro h
  exact ComputeResult.noConfusion h

/-- C10: `create_tuple` unwraps its argument only when the `elements` argument
as a whole is a `SecureFederatedExecutorValue`; every sequence of elements is
forwarded to the target unchanged — in particular an element that is itself a
`SecureFederatedExecutorValue` stays wrapped — unlike `create_call`, which
unwraps its computation and argument values before delegating. -/
theorem c10_create_tuple_unwraps_only_whole_argument (tgt : Executor)
    (v w c a : ExecutorValue) (xs rest : List (Option String × ExecutorValue))
    (nm : Option String) (ts : String) (r : LoggingHelpers.PyObj) :
    (secure_create_tuple tgt (.single (.secure v))).2 = .secure (tgt.create_tuple (.single v))
    ∧ (secure_create_tuple tgt (.seq xs)).2 = .secure (tgt.create_tuple (.seq xs))
    ∧ (secure_create_tuple tgt (.seq ((nm, .secure w) :: rest))).2
        = .secure (tgt.create_tuple (.seq ((nm, .secure w) :: rest)))
    ∧ (secure_create_tuple tgt (.single (.base ts r))).2
        = .secure (tgt.create_tuple (.single (.base ts r)))
    ∧ secure_create_call tgt (.secure c) (some (.secure a))
        = .ok (.secure (tgt.create_call c (some a)))
    ∧ secure_create_call tgt (.secure c) none = .ok (.secure (tgt.create_call c none)) :=
  ⟨rfl, rfl, rfl, rfl, rfl, rfl⟩

/-- C9 counterexample: after applying `monkey_patch_executor` twice to the
same executor, `_real_create_value` does hold the already-wrapped operation
(the true half of the claim) — but a single `create_value` call then does not
complete at all: after a delegation budget of 100 steps it is still re-entering
the wrapper (having printed 100 call lines and incremented the counter 100
times), has produced no result, and has never invoked the original operation,
contradicting the claimed behavior of two trace emissions around exactly one
invocation of the original. -/
theorem c9_double_patch_counterexample :
    (monkey_patch_executor (monkey_patch_executor freshAttrs)).real_create_value
      = some Slot.wrapper
    ∧ run_create_value Inputs.okDelegate2
        (monkey_patch_executor (monkey_patch_executor freshAttrs))
        Inputs.exInfo0 100 .wrapper .pyNone .pyNone Inputs.st0
      = .outOfFuel ((create_value_entry Inputs.exInfo0 .pyNone .pyNone)^[100] Inputs.st0)
    ∧ (run_create_value Inputs.okDelegate2
        (monkey_patch_executor (monkey_patch_executor freshAttrs))
        Inputs.exInfo0 100 .wrapper .pyNone .pyNone Inputs.st0).okValue = none
    ∧ ((create_value_entry Inputs.exInfo0 .pyNone .pyNone)^[100] Inputs.st0).log.length
      = Inputs.st0.log.length + 100 := by
  have hdiv := Proofs.run_create_value_double_patched_diverges Inputs.okDelegate2
    Inputs.exInfo0 .pyNone .pyNone 100 Inputs.st0
  refine ⟨rfl, hdiv, ?_, Proofs.iterate_entry_log_length Inputs.exInfo0 .pyNone .pyNone 100 Inputs.st0⟩
  rw [hdiv]
  rfl

/-- C9 (amended): `monkey_patch_executor` is not idempotent: a second
application to the same stage saves the already-wrapped operation in
`_real_create_value` and the other three `_real_*` slots.  However, because
the wrapper body resolves `executor._real_create_value` at call time, a single
`create_value` call on the doubly patched stage never completes and never
invokes the original unwrapped operation: every delegation step re-enters the
wrapper, emitting one more call-line and incrementing the call-depth counter
once more, for any finite number of steps (unbounded recursion, a
RecursionError in the Python runtime).  On a singly patched stage the call is
exactly one wrapper layer around the original operation. -/
theorem c9_double_patch_diverges_amended
    (orig : LoggingHelpers.PyObj → LoggingHelpers.PyObj → LogState → RunResult LoggingHelpers.PyObj)
    (ex : ExecutorInfo) (v ts : LoggingHelpers.PyObj) (s : LogState)
    (fuel : Nat) (a : NodeAttrs) :
    ((monkey_patch_executor (monkey_patch_executor a)).real_create_value = some .wrapper
      ∧ (monkey_patch_executor (monkey_patch_executor a)).real_create_call = some .wrapper
      ∧ (monkey_patch_executor (monkey_patch_executor a)).real_create_tuple = some .wrapper
      ∧ (monkey_patch_executor (monkey_patch_executor a)).real_create_selection = some .wrapper)
    ∧ run_create_value orig (monkey_patch_executor (monkey_patch_executor freshAttrs)) ex
        fuel .wrapper v ts s
      = .outOfFuel ((create_value_entry ex v ts)^[fuel] s)
    ∧ ((create_value_entry ex v ts)^[fuel] s).callLevel = s.callLevel + fuel
    ∧ ((create_value_entry ex v ts)^[fuel] s).log.length = s.log.length + fuel
    ∧ run_create_value orig (monkey_patch_executor freshAttrs) ex (fuel + 1) .wrapper v ts s
      = create_value_wrapper ex orig v ts s :=
  ⟨Proofs.double_patch_saves_wrapper a,
   Proofs.run_create_value_double_patched_diverges orig ex v ts fuel s,
   Proofs.iterate_entry_callLevel ex v ts fuel s,
   Proofs.iterate_entry_log_length ex v ts fuel s,
   Proofs.run_create_value_single_patched orig ex v ts fuel s⟩

end Claims
